import Mathlib

/-!
Shallow embedding of the NodeTranspiler transform-result cache
(src/pkg/nuclide-file-tree/components/FileTree.js, second document:
the nuclide-node-transpiler module).

Modelling conventions:
* Byte sequences (JS strings / Buffers) are modelled as Lean `String`
  (hash input streams as `List Char`).
* Filesystem paths are component lists (`List String`); `path.join d n`
  is `d ++ [n]` and `path.dirname p` is `p.dropLast`.  The components
  produced by the code (hex digests, "." ++ uuid, fixed names) contain
  no separators, so this is faithful.
* The filesystem is a state `FS`: a partial map from paths to contents,
  plus failure oracles saying which primitive operations fail (Node
  errors such as EACCES are adversarial inputs here).  Each primitive
  mirrors the Node API used by the source: existsSync never throws,
  readFileSync throws on a missing or unreadable file, writeFile /
  mkdirp / rename report errors through their callback, and the
  source passes an empty callback to unlink so unlink failures are
  silently swallowed.
* crypto.createHash("sha1")....digest("hex") is modelled as an abstract
  function `sha1 : List Char → String` applied to the exact byte stream
  the source feeds into the hash; claims about digest inequality assume
  the hash is collision-free on the relevant inputs (`Function.Injective`),
  which is the spec\x27s own reading of sha1.
* The babel engine (external collaborator per the spec) is a parameter
  `babel : String → Except String String`; errors model thrown
  exceptions.  console.error output is collected in a log list.
-/

namespace NodeTranspiler

/-- Decidable equality for Except values, used to evaluate concrete
scenarios. -/
instance {α β : Type} [DecidableEq α] [DecidableEq β] :
    DecidableEq (Except α β) := fun x y =>
  match x, y with
  | .ok a, .ok b =>
      if h : a = b then isTrue (by rw [h])
      else isFalse fun he => h (Except.ok.inj he)
  | .ok _, .error _ => isFalse fun he => Except.noConfusion he
  | .error _, .ok _ => isFalse fun he => Except.noConfusion he
  | .error a, .error b =>
      if h : a = b then isTrue (by rw [h])
      else isFalse fun he => h (Except.error.inj he)

/-- Filesystem paths as component lists. -/
abbrev Path := List String

/-- Filesystem state: contents of existing files plus failure oracles for
the primitive operations the transpiler uses.  An oracle returning true
means the corresponding Node call fails (e.g. with EACCES). -/
structure FS where
  files : Path → Option String
  dirs : Path → Bool
  unreadable : Path → Bool
  mkdirFails : Path → Bool
  writeFails : Path → Bool
  renameFails : Path → Bool
  unlinkFails : Path → Bool

/-- Node fs.existsSync: true iff a file exists at the path; never throws
(errors during the underlying stat are swallowed and reported as false). -/
def existsSync (fs : FS) (p : Path) : Bool :=
  (fs.files p).isSome

/-- Node fs.readFileSync: returns the contents, or throws ENOENT when the
file is missing, or EACCES when it exists but cannot be read. -/
def readFileSync (fs : FS) (p : Path) : Except String String :=
  match fs.files p with
  | none => .error "ENOENT: read"
  | some c => if fs.unreadable p then .error "EACCES: read" else .ok c

/-- Node fs.writeFile (callback style): creates/overwrites the file, or
reports an error. -/
def writeFile (fs : FS) (p : Path) (c : String) : Except String FS :=
  if fs.writeFails p then .error "EACCES: write"
  else .ok { fs with files := fun q => if q = p then some c else fs.files q }

/-- mkdirp: idempotent directory creation; directory-already-exists is not
an error, but the creation itself may fail (e.g. unwritable parent). -/
def mkdirp (fs : FS) (d : Path) : Except String FS :=
  if fs.mkdirFails d then .error "EACCES: mkdir"
  else .ok { fs with dirs := fun q => if q = d then true else fs.dirs q }

/-- Node fs.rename: atomically moves src over dst, or reports an error. -/
def rename (fs : FS) (src dst : Path) : Except String FS :=
  if fs.renameFails dst then .error "EACCES: rename"
  else
    match fs.files src with
    | none => .error "ENOENT: rename"
    | some c =>
        .ok { fs with
              files := fun q =>
                if q = dst then some c
                else if q = src then none
                else fs.files q }

/-- Node fs.unlink as called by the source with an empty callback
(fs.unlink(tmpName, () => ...)): deletes the file; a failure leaves the
filesystem unchanged and is silently swallowed (not even logged). -/
def unlink (fs : FS) (p : Path) : FS :=
  if fs.unlinkFails p then fs
  else { fs with files := fun q => if q = p then none else fs.files q }

/-- PREFIXES from the source: the recognized textual directives. -/
def PREFIXES : List String :=
  ["\x27use babel\x27", "\x22use babel\x22", "/* @flow */", "/** @babel */"]

/-- PREFIX_LENGTH from the source: Math.max over the directive lengths. -/
def PREFIX_LENGTH : Nat :=
  (PREFIXES.map (fun p => p.length)).foldl max 0

/-- NodeTranspiler.shouldCompile: slice the first PREFIX_LENGTH bytes and
test whether any recognized directive is a leading substring
(String.startsWith). -/
def shouldCompile (bufferOrString : List Char) : Bool :=
  let start := bufferOrString.take PREFIX_LENGTH
  PREFIXES.any (fun p => p.data.isPrefixOf start)

/-- PipelineConfig: the immutable per-process description of the
transformation.  In the source the tool identifier is the literal
"babel-core" fed to the hash, the version is this._babelVersion, the
options serialization is JSON.stringify(BABEL_OPTIONS) (an opaque
constant string here, since BABEL_OPTIONS is never mutated), and the
hashed logic units are __filename followed by BABEL_OPTIONS.plugins
(all truthy, so the filter(Boolean) in the source drops nothing). -/
structure Config where
  toolId : String
  babelVersion : String
  optionsJson : String
  selfFile : Path
  plugins : List Path

/-- Mutable per-instance state of NodeTranspiler: the memo fields
this._configDigest and this._cacheDir (null when not yet computed). -/
structure NT where
  configDigest : Option String
  cacheDir : Option Path

/-- Null byte used as field separator in the hash stream. -/
def nulChar : Char := Char.ofNat 0

/-- Encoding of the logic-unit contents in the hash stream: each unit is
its full contents followed by a NUL terminator (the forEach loop in
getConfigDigest). -/
def encodeUnits (unitContents : List String) : List Char :=
  (unitContents.map (fun c => c.data ++ [nulChar])).flatten

/-- Byte stream fed to the sha1 hash by getConfigDigest, in source order:
toolId, NUL, version, NUL, options JSON, then for each logic unit its
full contents followed by NUL. -/
def configHashInput (toolId babelVersion optionsJson : String)
    (unitContents : List String) : List Char :=
  toolId.data ++ [nulChar] ++ babelVersion.data ++ [nulChar]
    ++ optionsJson.data ++ encodeUnits unitContents

/-- Sequential fs.readFileSync over the logic-unit files, as performed by
the forEach loop in getConfigDigest; the first thrown read error aborts
and propagates. -/
def readAll (fs : FS) (ps : List Path) : Except String (List String) :=
  match ps with
  | [] => .ok []
  | p :: rest =>
      match readFileSync fs p with
      | .error e => .error e
      | .ok c =>
          match readAll fs rest with
          | .error e => .error e
          | .ok cs => .ok (c :: cs)

/-- NodeTranspiler.getConfigDigest: returns the memoized digest when it
exists; otherwise reads every logic-unit file (own source first, then
plugins), hashes the stream, memoizes and returns the hex digest.  A read
failure propagates (second component: the instance state after the call;
on failure the memo field is untouched, as the JS exception aborts before
the assignment to this._configDigest). -/
def getConfigDigest (sha1 : List Char → String) (cfg : Config) (nt : NT)
    (fs : FS) : Except String String × NT :=
  match nt.configDigest with
  | some d => (.ok d, nt)
  | none =>
      match readAll fs (cfg.selfFile :: cfg.plugins) with
      | .error e => (.error e, nt)
      | .ok contents =>
          let d := sha1 (configHashInput cfg.toolId cfg.babelVersion
            cfg.optionsJson contents)
          (.ok d, { nt with configDigest := some d })

/-- NodeTranspiler._getCacheFilename: hex sha1 of the source bytes gives
the per-file digest; the cache directory is memoized as
join(os.tmpdir(), "nuclide-node-transpiler", getConfigDigest()); the
result is join(cacheDir, fileDigest ++ ".js").  A getConfigDigest read
failure propagates (and then neither memo field is updated). -/
def getCacheFilename (sha1 : List Char → String) (tmpdir : Path)
    (cfg : Config) (nt : NT) (fs : FS) (src : String) :
    Except String (Path × NT) :=
  let fileDigest := sha1 src.data
  match nt.cacheDir with
  | some d => .ok (d ++ [fileDigest ++ ".js"], nt)
  | none =>
      match getConfigDigest sha1 cfg nt fs with
      | (.error e, _) => .error e
      | (.ok dg, nt1) =>
          let d := tmpdir ++ ["nuclide-node-transpiler", dg]
          .ok (d ++ [fileDigest ++ ".js"], { nt1 with cacheDir := some d })

/-- NodeTranspiler.transform: invoke babel on the source; on engine
rejection, log an "Error transpiling" message naming the advisory
filename to the console and rethrow the engine error unchanged.  First
component: the returned output or the propagated exception; second:
console.error output. -/
def transform (babel : String → Except String String)
    (src filename : String) : Except String String × List String :=
  match babel src with
  | .ok output => (.ok output, [])
  | .error err =>
      (.error err, ["Error transpiling \x22" ++ filename ++ "\x22"])

/-- Temporary file path chosen by cacheWriteAsync:
join(path.dirname(filename), "." ++ uuid.v4()).  The uuid is supplied as
a parameter (freshly random in the source). -/
def cacheTmpName (filename : Path) (uuid : String) : Path :=
  filename.dropLast ++ ["." ++ uuid]

/-- cacheWriteAsync: mkdirp the cache directory, write the output to the
uniquely named temporary file in the same directory, then rename it over
the final path.  Every failure is logged (console.error with the
"nuclide-node-transpiler:" tag) and the function returns without
raising; on a rename failure the temporary file is best-effort unlinked
with failures swallowed.  Returns the resulting filesystem and the log. -/
def cacheWriteAsync (fs : FS) (filename : Path) (src : String)
    (uuid : String) : FS × List String :=
  let basedir := filename.dropLast
  let tmpName := cacheTmpName filename uuid
  match mkdirp fs basedir with
  | .error e => (fs, ["nuclide-node-transpiler: " ++ e])
  | .ok fs1 =>
      match writeFile fs1 tmpName src with
      | .error e => (fs1, ["nuclide-node-transpiler: " ++ e])
      | .ok fs2 =>
          match rename fs2 tmpName filename with
          | .error e => (unlink fs2 tmpName, ["nuclide-node-transpiler: " ++ e])
          | .ok fs3 => (fs3, [])

/-- Result of a transformWithCache call: the returned output (or the
propagated exception), the instance state, the filesystem after the
call (with the asynchronous write-back, when one was scheduled, already
completed — the write-back never affects the returned output), the
number of babel-engine invocations performed, and the console log. -/
structure Result where
  out : Except String String
  nt : NT
  fs : FS
  engineCalls : Nat
  log : List String

/-- NodeTranspiler.transformWithCache: compute the cache path; if a file
exists there, read and return it (a read error on the existing file
propagates — there is no try/catch around fs.readFileSync); otherwise
transform and schedule the asynchronous cache write, returning the
fresh output immediately. -/
def transformWithCache (babel : String → Except String String)
    (sha1 : List Char → String) (tmpdir : Path) (cfg : Config) (nt : NT)
    (src filename uuid : String) (fs : FS) : Result :=
  match getCacheFilename sha1 tmpdir cfg nt fs src with
  | .error e => ⟨.error e, nt, fs, 0, []⟩
  | .ok (cacheFilename, nt1) =>
      if existsSync fs cacheFilename then
        match readFileSync fs cacheFilename with
        | .ok c => ⟨.ok c, nt1, fs, 0, []⟩
        | .error e => ⟨.error e, nt1, fs, 0, []⟩
      else
        match transform babel src filename with
        | (.error e, tlog) => ⟨.error e, nt1, fs, 1, tlog⟩
        | (.ok output, tlog) =>
            let w := cacheWriteAsync fs cacheFilename output uuid
            ⟨.ok output, nt1, w.1, 1, tlog ++ w.2⟩

/-- Helper: a pattern no longer than the scan window is a leading
substring of the truncated input iff it is a leading substring of the
whole input. -/
theorem prefix_take_window {p l : List Char} {n : Nat} (h : p.length ≤ n) :
    p <+: l.take n ↔ p <+: l :=
  ⟨fun hp => hp.trans ( List.take_prefix n l),
   fun hp => List.prefix_take_iff.mpr ⟨hp, h⟩⟩

/-- Every recognized directive fits in the scan window. -/
theorem directive_le_window {p : String} (hp : p ∈ PREFIXES) :
    p.data.length ≤ PREFIX_LENGTH := by
  simp only [PREFIXES, List.mem_cons, List.not_mem_nil, or_false] at hp
  rcases hp with rfl | rfl | rfl | rfl <;> decide

/-- C7: shouldCompile returns true iff one of the fixed recognized
directive strings occurs as a prefix of the input at offset 0
(case-sensitive, exact); in particular it is false whenever no directive
is a prefix, e.g. when a directive occurs only at a non-zero offset.  It
inspects only the first PREFIX_LENGTH bytes: the result on any input
equals the result on its PREFIX_LENGTH-byte truncation. -/
theorem shouldCompile_spec (src : List Char) :
    (shouldCompile src = true ↔ ∃ p ∈ PREFIXES, p.data <+: src) ∧
    shouldCompile src = shouldCompile (src.take PREFIX_LENGTH) := by
  constructor
  · show (PREFIXES.any (fun p => p.data.isPrefixOf (src.take PREFIX_LENGTH))) = true ↔ _
    rw [List.any_eq_true]
    constructor
    · rintro ⟨p, hp, hpre⟩
      rw [ List.isPrefixOf_iff_prefix] at hpre
      exact ⟨p, hp, hpre.trans ( List.take_prefix _ _)⟩
    · rintro ⟨p, hp, hpre⟩
      refine ⟨p, hp, ?_⟩
      rw [ List.isPrefixOf_iff_prefix]
      exact (prefix_take_window (directive_le_window hp)).mpr hpre
  · show (PREFIXES.any (fun p => p.data.isPrefixOf (src.take PREFIX_LENGTH))) =
      (PREFIXES.any (fun p => p.data.isPrefixOf ((src.take PREFIX_LENGTH).take PREFIX_LENGTH)))
    rw [List.take_take, Nat.min_self]

/-- Normal form of the hash stream with fully right-nested appends, for
cancellation arguments. -/
theorem configHashInput_nf (t v o : String) (cs : List String) :
    configHashInput t v o cs =
      t.data ++ ([nulChar] ++ (v.data ++ ([nulChar] ++
        (o.data ++ encodeUnits cs)))) := by
  simp [configHashInput, List.append_assoc]

/-- Splitting the unit encoding around one distinguished unit. -/
theorem encodeUnits_split (pre : List String) (x : String)
    (suf : List String) :
    encodeUnits (pre ++ x :: suf) =
      encodeUnits pre ++ (x.data ++ ([nulChar] ++ encodeUnits suf)) := by
  simp [encodeUnits, List.append_assoc]

/-- C5: the fingerprint is sensitive to every input.  On a fresh instance
the digest is exactly the hash of configHashInput over the logic-unit
bytes that were read; and the hash input stream (hence, for a
collision-free hash, the digest) changes whenever the tool identifier,
the tool version, the options serialization, or any single logic
unit\x27s contents change with everything else held fixed.  In
particular, because each logic unit is NUL-terminated in the stream,
unit contents ("ab", "c") and ("a", "bc") produce different streams and
therefore different fingerprints. -/
theorem configDigest_sensitivity (sha1 : List Char → String)
    (hinj : Function.Injective sha1) :
    (∀ (cfg : Config) (nt : NT) (fs : FS) (cs : List String),
        nt.configDigest = none →
        readAll fs (cfg.selfFile :: cfg.plugins) = .ok cs →
        (getConfigDigest sha1 cfg nt fs).1 =
          .ok (sha1 (configHashInput cfg.toolId cfg.babelVersion
            cfg.optionsJson cs))) ∧
    (∀ t t' v o cs, t ≠ t' →
        sha1 (configHashInput t v o cs) ≠
          sha1 (configHashInput t' v o cs)) ∧
    (∀ t v v' o cs, v ≠ v' →
        sha1 (configHashInput t v o cs) ≠
          sha1 (configHashInput t v' o cs)) ∧
    (∀ t v o o' cs, o ≠ o' →
        sha1 (configHashInput t v o cs) ≠
          sha1 (configHashInput t v o' cs)) ∧
    (∀ t v o pre f f' suf, f ≠ f' →
        sha1 (configHashInput t v o (pre ++ f :: suf)) ≠
          sha1 (configHashInput t v o (pre ++ f' :: suf))) ∧
    (∀ t v o, sha1 (configHashInput t v o ["ab", "c"]) ≠
        sha1 (configHashInput t v o ["a", "bc"])) := by
  refine ⟨?_, ?_, ?_, ?_, ?_, ?_⟩
  · intro cfg nt fs cs hfresh hread
    simp only [getConfigDigest, hfresh, hread]
  · intro t t' v o cs ht heq
    have hs := hinj heq
    rw [configHashInput_nf, configHashInput_nf] at hs
    exact ht (String.ext (List.append_cancel_right hs))
  · intro t v v' o cs hv heq
    have hs := hinj heq
    rw [configHashInput_nf, configHashInput_nf] at hs
    have h1 := List.append_cancel_left (List.append_cancel_left hs)
    exact hv (String.ext (List.append_cancel_right h1))
  · intro t v o o' cs ho heq
    have hs := hinj heq
    rw [configHashInput_nf, configHashInput_nf] at hs
    have h1 := List.append_cancel_left (List.append_cancel_left
      (List.append_cancel_left (List.append_cancel_left hs)))
    exact ho (String.ext (List.append_cancel_right h1))
  · intro t v o pre f f' suf hf heq
    have hs := hinj heq
    rw [configHashInput_nf, configHashInput_nf] at hs
    have h1 := List.append_cancel_left (List.append_cancel_left
      (List.append_cancel_left (List.append_cancel_left
        (List.append_cancel_left hs))))
    rw [encodeUnits_split, encodeUnits_split] at h1
    have h2 := List.append_cancel_left h1
    exact hf (String.ext (List.append_cancel_right h2))
  · intro t v o heq
    have hs := hinj heq
    rw [configHashInput_nf, configHashInput_nf] at hs
    have h1 := List.append_cancel_left (List.append_cancel_left
      (List.append_cancel_left (List.append_cancel_left
        (List.append_cancel_left hs))))
    have : encodeUnits ["ab", "c"] ≠ encodeUnits ["a", "bc"] := by decide
    exact this h1

/-- C5 witness: instantiating the hash with the injective function
String.mk and the fields with concrete values. -/
theorem configDigest_sensitivity_witness :
    Function.Injective String.mk ∧
    ("babel-core" : String) ≠ "other-tool" ∧
    ("1.0" : String) ≠ "2.0" ∧
    ("optsA" : String) ≠ "optsB" ∧
    ("unit-a" : String) ≠ "unit-b" ∧
    String.mk (configHashInput "babel-core" "1.0" "optsA" ["u"]) ≠
      String.mk (configHashInput "other-tool" "1.0" "optsA" ["u"]) ∧
    String.mk (configHashInput "babel-core" "1.0" "optsA" ["u"]) ≠
      String.mk (configHashInput "babel-core" "2.0" "optsA" ["u"]) ∧
    String.mk (configHashInput "babel-core" "1.0" "optsA" ["u"]) ≠
      String.mk (configHashInput "babel-core" "1.0" "optsB" ["u"]) ∧
    String.mk (configHashInput "babel-core" "1.0" "optsA"
        (["u"] ++ "unit-a" :: [])) ≠
      String.mk (configHashInput "babel-core" "1.0" "optsA"
        (["u"] ++ "unit-b" :: [])) ∧
    String.mk (configHashInput "babel-core" "1.0" "optsA" ["ab", "c"]) ≠
      String.mk (configHashInput "babel-core" "1.0" "optsA" ["a", "bc"]) := by
  have hinj : Function.Injective String.mk :=
    fun a b h => congrArg String.data h
  have hmain := configDigest_sensitivity String.mk hinj
  exact ⟨hinj, by decide, by decide, by decide, by decide,
    hmain.2.1 _ _ _ _ _ (by decide),
    hmain.2.2.1 _ _ _ _ _ (by decide),
    hmain.2.2.2.1 _ _ _ _ _ (by decide),
    hmain.2.2.2.2.1 _ _ _ _ _ _ _ (by decide),
    hmain.2.2.2.2.2 _ _ _⟩

/-- Helper: readAll only depends on the reads of the listed files. -/
theorem readAll_congr (fs1 fs2 : FS) (ps : List Path)
    (h : ∀ p ∈ ps, readFileSync fs1 p = readFileSync fs2 p) :
    readAll fs1 ps = readAll fs2 ps := by
  induction ps with
  | nil => rfl
  | cons p rest ih =>
      simp only [readAll]
      rw [h p (by simp), ih (fun q hq => h q (by simp [hq]))]

/-- C4: the fingerprint is deterministic and memoized.  Two computations
from the same PipelineConfig over filesystems whose logic-unit files
read identically produce the same result (the across-process case), and
once a call succeeds the digest is memoized: every later call on the
resulting instance state returns the same digest unchanged, on any
filesystem whatsoever (so the second in-process call performs no
recomputation). -/
theorem getConfigDigest_deterministic (sha1 : List Char → String)
    (cfg : Config) (nt : NT) (fs1 fs2 : FS)
    (hreads : ∀ p ∈ cfg.selfFile :: cfg.plugins,
      readFileSync fs1 p = readFileSync fs2 p) :
    (getConfigDigest sha1 cfg nt fs1).1 =
      (getConfigDigest sha1 cfg nt fs2).1 ∧
    (∀ d nt', getConfigDigest sha1 cfg nt fs1 = (.ok d, nt') →
      ∀ fs3, getConfigDigest sha1 cfg nt' fs3 = (.ok d, nt')) := by
  have hra := readAll_congr fs1 fs2 (cfg.selfFile :: cfg.plugins) hreads
  constructor
  · unfold getConfigDigest
    cases nt.configDigest with
    | some d => rfl
    | none => rw [hra]
  · intro d nt' hcall fs3
    unfold getConfigDigest at hcall ⊢
    cases hnt : nt.configDigest with
    | some d0 =>
        rw [hnt] at hcall
        have hd : d0 = d := by
          have := congrArg Prod.fst hcall
          simpa using this
        have hnt' : nt = nt' := congrArg Prod.snd hcall
        rw [← hnt', hnt, hd]
    | none =>
        rw [hnt] at hcall
        cases hread : readAll fs1 (cfg.selfFile :: cfg.plugins) with
        | error e =>
            rw [hread] at hcall
            exact absurd (congrArg Prod.fst hcall) (by simp)
        | ok contents =>
            rw [hread] at hcall
            have hd : sha1 (configHashInput cfg.toolId cfg.babelVersion
                cfg.optionsJson contents) = d := by
              have := congrArg Prod.fst hcall
              simpa using this
            have hnt' : { nt with configDigest := some (sha1
                (configHashInput cfg.toolId cfg.babelVersion
                  cfg.optionsJson contents)) } = nt' :=
              congrArg Prod.snd hcall
            rw [← hnt', hd]

/-- C9: a read failure while loading a logic-unit file is fatal for the
fingerprint computation: when no digest is memoized yet and the
sequential logic-unit reads fail, getConfigDigest propagates exactly
that read error and the instance state is unchanged — no fingerprint is
produced or memoized. -/
theorem getConfigDigest_read_failure (sha1 : List Char → String)
    (cfg : Config) (nt : NT) (fs : FS) (e : String)
    (hfresh : nt.configDigest = none)
    (hfail : readAll fs (cfg.selfFile :: cfg.plugins) = .error e) :
    getConfigDigest sha1 cfg nt fs = (.error e, nt) ∧
    (getConfigDigest sha1 cfg nt fs).2.configDigest = none := by
  unfold getConfigDigest
  rw [hfresh, hfail]
  exact ⟨rfl, hfresh⟩

/-- Example logic-unit paths for concrete instantiations. -/
def exSelf : Path := ["self.js"]

/-- Example plugin path. -/
def exPlugin : Path := ["plugin.js"]

/-- Example PipelineConfig. -/
def exCfg : Config :=
  { toolId := "babel-core", babelVersion := "6.5.0", optionsJson := "OPTS",
    selfFile := exSelf, plugins := [exPlugin] }

/-- Fresh NodeTranspiler instance state (both memo fields null). -/
def exNT : NT := { configDigest := none, cacheDir := none }

/-- Filesystem with the given contents and no failure injections. -/
def cleanFS (files : Path → Option String) : FS :=
  { files := files, dirs := fun _ => false, unreadable := fun _ => false,
    mkdirFails := fun _ => false, writeFails := fun _ => false,
    renameFails := fun _ => false, unlinkFails := fun _ => false }

/-- Example filesystem holding both logic units. -/
def fsA : FS :=
  cleanFS (fun q =>
    if q = exSelf then some "SELF"
    else if q = exPlugin then some "PLUG" else none)

/-- A second filesystem agreeing with fsA on the logic units but not
elsewhere (a different process\x27s view). -/
def fsB : FS :=
  cleanFS (fun q =>
    if q = exSelf then some "SELF"
    else if q = exPlugin then some "PLUG"
    else if q = ["unrelated.txt"] then some "X" else none)

/-- Example filesystem in which the plugin logic unit is missing. -/
def fsMissingPlugin : FS :=
  cleanFS (fun q => if q = exSelf then some "SELF" else none)

/-- C4 witness: concrete configuration, two filesystems agreeing on the
logic-unit files. -/
theorem getConfigDigest_deterministic_witness :
    (∀ p ∈ exCfg.selfFile :: exCfg.plugins,
      readFileSync fsA p = readFileSync fsB p) ∧
    ((getConfigDigest String.mk exCfg exNT fsA).1 =
      (getConfigDigest String.mk exCfg exNT fsB).1 ∧
    (∀ d nt', getConfigDigest String.mk exCfg exNT fsA = (.ok d, nt') →
      ∀ fs3, getConfigDigest String.mk exCfg nt' fs3 = (.ok d, nt'))) :=
  ⟨by decide,
   getConfigDigest_deterministic String.mk exCfg exNT fsA fsB (by decide)⟩

/-- C9 witness: a missing plugin file makes the fingerprint computation
fail with the read error, with nothing memoized. -/
theorem getConfigDigest_read_failure_witness :
    exNT.configDigest = none ∧
    readAll fsMissingPlugin (exCfg.selfFile :: exCfg.plugins) =
      .error "ENOENT: read" ∧
    (getConfigDigest String.mk exCfg exNT fsMissingPlugin =
      (.error "ENOENT: read", exNT) ∧
    (getConfigDigest String.mk exCfg exNT fsMissingPlugin).2.configDigest =
      none) :=
  ⟨rfl, by decide,
   getConfigDigest_read_failure String.mk exCfg exNT fsMissingPlugin
     "ENOENT: read" rfl (by decide)⟩

/-- Example rejecting engine: babel throwing the same diagnostic on every
input. -/
def exBadBabel : String → Except String String :=
  fun _ => .error "SyntaxError: unexpected token"

/-- C6 counterexample: the error propagated out of transform is the bare
engine diagnostic — it is byte-identical for two different advisory
filenames, so it cannot wrap the filename; no TransformError wrapper is
constructed (the filename reaches only the console log). -/
theorem transform_no_wrapper_counterexample :
    (transform exBadBabel "bad()" "a.js").1 =
      (transform exBadBabel "bad()" "b.js").1 ∧
    (transform exBadBabel "bad()" "a.js").1 =
      .error "SyntaxError: unexpected token" ∧
    ("a.js" : String) ≠ "b.js" :=
  ⟨rfl, rfl, by decide⟩

/-- C6 (amended): when the engine rejects the input, transform logs an
"Error transpiling" console message naming the advisory filename and
propagates the engine\x27s diagnostic unchanged, synchronously, to the
caller; the rejection is never swallowed, but no wrapper error carrying
the filename is constructed. -/
theorem transform_engine_rejection (babel : String → Except String String)
    (src filename e : String) (h : babel src = .error e) :
    transform babel src filename =
      (.error e, ["Error transpiling \x22" ++ filename ++ "\x22"]) := by
  unfold transform
  rw [h]

/-- C6 witness: concrete rejecting engine and filename. -/
theorem transform_engine_rejection_witness :
    exBadBabel "bad()" = .error "SyntaxError: unexpected token" ∧
    transform exBadBabel "bad()" "f.js" =
      (.error "SyntaxError: unexpected token",
       ["Error transpiling \x22f.js\x22"]) :=
  ⟨rfl, transform_engine_rejection exBadBabel "bad()" "f.js"
    "SyntaxError: unexpected token" rfl⟩

/-- Example platform temp directory. -/
def exTmp : Path := ["tmp"]

/-- Example successful engine. -/
def exGoodBabel : String → Except String String :=
  fun s => .ok ("OUT " ++ s)

/-- Cache path computed for source "srcX" under the example
configuration. -/
def exCachePath : Path :=
  match getCacheFilename String.mk exTmp exCfg exNT fsA "srcX" with
  | .ok (p, _) => p
  | .error _ => []

/-- Instance state after the example cache-path computation. -/
def exNT1 : NT :=
  match getCacheFilename String.mk exTmp exCfg exNT fsA "srcX" with
  | .ok (_, n) => n
  | .error _ => exNT

/-- Filesystem where the cache file for "srcX" exists but is unreadable
(e.g. a permission error), while the logic units read as in fsA. -/
def fsLocked : FS :=
  { files := fun q => if q = exCachePath then some "CACHED" else fsA.files q,
    dirs := fun _ => false,
    unreadable := fun q => decide (q = exCachePath),
    mkdirFails := fun _ => false, writeFails := fun _ => false,
    renameFails := fun _ => false, unlinkFails := fun _ => false }

/-- C2 counterexample: a permission error while reading an existing
cache file is not treated as a miss — transformWithCache raises the
lookup error "EACCES: read" to the caller instead of falling through to
recomputation, although the engine would have produced output
"OUT srcX" (there is no try/catch around fs.readFileSync in the
source). -/
theorem lookup_error_counterexample :
    (transformWithCache exGoodBabel String.mk exTmp exCfg exNT "srcX"
      "f.js" "u1" fsLocked).out = .error "EACCES: read" ∧
    exGoodBabel "srcX" = .ok "OUT srcX" ∧
    (transformWithCache exGoodBabel String.mk exTmp exCfg exNT "srcX"
      "f.js" "u1" fsLocked).out ≠ .ok "OUT srcX" := by
  refine ⟨by decide, rfl, by decide⟩

/-- C2 (amended): a missing cache file is the only lookup outcome treated
as a miss.  When no file exists at the cache path, transformWithCache
falls through to recomputation and returns exactly what transform
returns; but a filesystem failure while reading an existing cache file
(e.g. a permission error) propagates the read error to the caller
instead of degrading to a miss. -/
theorem lookup_error_policy (babel : String → Except String String)
    (sha1 : List Char → String) (tmpdir : Path) (cfg : Config) (nt : NT)
    (src filename uuid : String) (fs : FS) (cp : Path) (nt1 : NT)
    (hpath : getCacheFilename sha1 tmpdir cfg nt fs src = .ok (cp, nt1)) :
    (fs.files cp = none →
      (transformWithCache babel sha1 tmpdir cfg nt src filename uuid
        fs).out = (transform babel src filename).1) ∧
    (∀ c, fs.files cp = some c → fs.unreadable cp = true →
      (transformWithCache babel sha1 tmpdir cfg nt src filename uuid
        fs).out = .error "EACCES: read") := by
  constructor
  · intro hmiss
    have hex : existsSync fs cp = false := by
      simp [existsSync, hmiss]
    unfold transformWithCache
    simp only [hpath, hex, Bool.false_eq_true, if_false]
    cases htr : transform babel src filename with
    | mk o l =>
        cases o with
        | ok v => simp [htr]
        | error e => simp [htr]
  · intro c hsome hunread
    have hex : existsSync fs cp = true := by
      simp [existsSync, hsome]
    have hread : readFileSync fs cp = .error "EACCES: read" := by
      unfold readFileSync
      rw [hsome, hunread]
      simp
    unfold transformWithCache
    simp only [hpath, hex, if_true, hread]

/-- C2 witness: the amended policy applied to the concrete locked-cache
scenario — the cache file exists, is unreadable, and the read error
propagates. -/
theorem lookup_error_policy_witness :
    getCacheFilename String.mk exTmp exCfg exNT fsLocked "srcX" =
      .ok (exCachePath, exNT1) ∧
    fsLocked.files exCachePath = some "CACHED" ∧
    fsLocked.unreadable exCachePath = true ∧
    (transformWithCache exGoodBabel String.mk exTmp exCfg exNT "srcX"
      "f.js" "u1" fsLocked).out = .error "EACCES: read" := by
  have h := lookup_error_policy exGoodBabel String.mk exTmp exCfg exNT
    "srcX" "f.js" "u1" fsLocked exCachePath exNT1 (by rfl)
  exact ⟨by rfl, by rfl, by decide, h.2 "CACHED" (by rfl) (by decide)⟩

/-- C10: if the engine throws on the miss path, the cache state is
unchanged by the call: transformWithCache propagates the engine error
and returns the filesystem exactly as it was — no temporary file is
written and no namespace directory is created, because cacheWriteAsync
is only invoked after transform returns successfully. -/
theorem transformWithCache_engine_failure
    (babel : String → Except String String) (sha1 : List Char → String)
    (tmpdir : Path) (cfg : Config) (nt : NT)
    (src filename uuid : String) (fs : FS) (cp : Path) (nt1 : NT)
    (e : String)
    (hpath : getCacheFilename sha1 tmpdir cfg nt fs src = .ok (cp, nt1))
    (hmiss : fs.files cp = none) (heng : babel src = .error e) :
    transformWithCache babel sha1 tmpdir cfg nt src filename uuid fs =
      ⟨.error e, nt1, fs, 1,
       ["Error transpiling \x22" ++ filename ++ "\x22"]⟩ := by
  have hex : existsSync fs cp = false := by
    simp [existsSync, hmiss]
  unfold transformWithCache
  simp only [hpath, hex, Bool.false_eq_true, if_false]
  unfold transform
  rw [heng]

/-- C10 witness: concrete miss with a rejecting engine; the filesystem
comes back identical. -/
theorem transformWithCache_engine_failure_witness :
    getCacheFilename String.mk exTmp exCfg exNT fsA "srcX" =
      .ok (exCachePath, exNT1) ∧
    fsA.files exCachePath = none ∧
    exBadBabel "srcX" = .error "SyntaxError: unexpected token" ∧
    transformWithCache exBadBabel String.mk exTmp exCfg exNT "srcX"
      "f.js" "u1" fsA =
      ⟨.error "SyntaxError: unexpected token", exNT1, fsA, 1,
       ["Error transpiling \x22f.js\x22"]⟩ := by
  refine ⟨by rfl, by rfl, rfl, ?_⟩
  have h := transformWithCache_engine_failure exBadBabel String.mk exTmp
    exCfg exNT "srcX" "f.js" "u1" fsA exCachePath exNT1
    "SyntaxError: unexpected token" (by rfl) (by rfl) rfl
  exact h

/-- Example filesystem whose cache root is completely unwritable: every
directory creation and every file write fails. -/
def fsUnwritable : FS :=
  { fsA with mkdirFails := fun _ => true, writeFails := fun _ => true }

/-- C8: on a cache miss with an unwritable cache directory (directory
creation fails, so no write is ever attempted), transformWithCache
still returns exactly the engine output; the write-back failure is only
logged and no cache-related error reaches the caller, and the
filesystem is unchanged. -/
theorem transformWithCache_miss_fallback
    (babel : String → Except String String) (sha1 : List Char → String)
    (tmpdir : Path) (cfg : Config) (nt : NT)
    (src filename uuid : String) (fs : FS) (cp : Path) (nt1 : NT)
    (out : String)
    (hpath : getCacheFilename sha1 tmpdir cfg nt fs src = .ok (cp, nt1))
    (hmiss : fs.files cp = none) (heng : babel src = .ok out)
    (hmk : fs.mkdirFails cp.dropLast = true) :
    transformWithCache babel sha1 tmpdir cfg nt src filename uuid fs =
      ⟨.ok out, nt1, fs, 1, ["nuclide-node-transpiler: EACCES: mkdir"]⟩ := by
  have hex : existsSync fs cp = false := by
    simp [existsSync, hmiss]
  have hw : cacheWriteAsync fs cp out uuid =
      (fs, ["nuclide-node-transpiler: EACCES: mkdir"]) := by
    unfold cacheWriteAsync mkdirp
    simp [hmk]
  unfold transformWithCache
  simp only [hpath, hex, Bool.false_eq_true, if_false]
  unfold transform
  rw [heng]
  simp [hw]

/-- C8 witness: the concrete unwritable filesystem still yields the
engine output "OUT srcX" with no raised error. -/
theorem transformWithCache_miss_fallback_witness :
    getCacheFilename String.mk exTmp exCfg exNT fsUnwritable "srcX" =
      .ok (exCachePath, exNT1) ∧
    fsUnwritable.files exCachePath = none ∧
    exGoodBabel "srcX" = .ok "OUT srcX" ∧
    fsUnwritable.mkdirFails exCachePath.dropLast = true ∧
    transformWithCache exGoodBabel String.mk exTmp exCfg exNT "srcX"
      "f.js" "u1" fsUnwritable =
      ⟨.ok "OUT srcX", exNT1, fsUnwritable, 1,
       ["nuclide-node-transpiler: EACCES: mkdir"]⟩ := by
  refine ⟨by rfl, by rfl, rfl, rfl, ?_⟩
  exact transformWithCache_miss_fallback exGoodBabel String.mk exTmp
    exCfg exNT "srcX" "f.js" "u1" fsUnwritable exCachePath exNT1
    "OUT srcX" (by rfl) (by rfl) rfl rfl

/-- Example final cache path for write-protocol scenarios. -/
def exFile : Path := ["tmp", "ns", "entry.js"]

/-- Example empty filesystem with no failure injections. -/
def fsEmpty : FS := cleanFS (fun _ => none)

/-- Example filesystem where the rename to exFile fails and the cleanup
unlink of the temporary file fails as well. -/
def fsRenameUnlinkFail : FS :=
  { files := fun _ => none, dirs := fun _ => false,
    unreadable := fun _ => false, mkdirFails := fun _ => false,
    writeFails := fun _ => false,
    renameFails := fun q => decide (q = exFile),
    unlinkFails := fun q => decide (q = cacheTmpName exFile "u9") }

/-- C3 counterexample: when the rename fails and the best-effort unlink
of the temporary file also fails, the log records only the rename
failure — the cleanup failure is silently swallowed (the source passes
an empty callback to fs.unlink), and the temporary file is left behind.
This refutes the claim that a failure at the cleanup step is logged. -/
theorem cacheWriteAsync_cleanup_not_logged :
    fsRenameUnlinkFail.renameFails exFile = true ∧
    fsRenameUnlinkFail.unlinkFails (cacheTmpName exFile "u9") = true ∧
    (cacheWriteAsync fsRenameUnlinkFail exFile "OUT" "u9").2 =
      ["nuclide-node-transpiler: EACCES: rename"] ∧
    (cacheWriteAsync fsRenameUnlinkFail exFile "OUT" "u9").1.files
      (cacheTmpName exFile "u9") = some "OUT" := by
  refine ⟨by decide, by decide, by decide, by decide⟩

/-- C3 (amended): the asynchronous write-back writes the full output to
a uniquely named temporary file in the same directory as the final
path, then renames it over the final path; if the rename fails the
temporary file is best-effort deleted; directory-creation, write and
rename failures are logged but never raised to the caller; a failure of
the cleanup unlink itself is silently swallowed (non-fatal, but not
logged). -/
theorem cacheWriteAsync_protocol (fs : FS) (filename : Path)
    (src uuid : String) :
    (cacheTmpName filename uuid).dropLast = filename.dropLast ∧
    (fs.mkdirFails filename.dropLast = true →
      cacheWriteAsync fs filename src uuid =
        (fs, ["nuclide-node-transpiler: EACCES: mkdir"])) ∧
    (fs.mkdirFails filename.dropLast = false →
      fs.writeFails (cacheTmpName filename uuid) = true →
      ((cacheWriteAsync fs filename src uuid).1.files = fs.files ∧
       (cacheWriteAsync fs filename src uuid).2 =
         ["nuclide-node-transpiler: EACCES: write"])) ∧
    (fs.mkdirFails filename.dropLast = false →
      fs.writeFails (cacheTmpName filename uuid) = false →
      fs.renameFails filename = true →
      fs.unlinkFails (cacheTmpName filename uuid) = false →
      ((cacheWriteAsync fs filename src uuid).1.files
          (cacheTmpName filename uuid) = none ∧
       (cacheWriteAsync fs filename src uuid).2 =
         ["nuclide-node-transpiler: EACCES: rename"])) ∧
    (fs.mkdirFails filename.dropLast = false →
      fs.writeFails (cacheTmpName filename uuid) = false →
      fs.renameFails filename = false →
      ((cacheWriteAsync fs filename src uuid).1.files filename = some src ∧
       (cacheTmpName filename uuid ≠ filename →
         (cacheWriteAsync fs filename src uuid).1.files
           (cacheTmpName filename uuid) = none) ∧
       (cacheWriteAsync fs filename src uuid).2 = [])) := by
  refine ⟨?_, ?_, ?_, ?_, ?_⟩
  · unfold cacheTmpName
    exact List.dropLast_concat
  · intro h1
    unfold cacheWriteAsync mkdirp
    simp [h1]
  · intro h1 h2
    unfold cacheWriteAsync mkdirp writeFile
    simp [h1, h2]
  · intro h1 h2 h3 h4
    unfold cacheWriteAsync mkdirp writeFile rename unlink
    simp [h1, h2, h3, h4]
  · intro h1 h2 h3
    unfold cacheWriteAsync mkdirp writeFile rename
    simp only [h1, h2, h3, Bool.false_eq_true, if_false]
    refine ⟨by simp, fun hne => by simp [hne], rfl⟩

/-- C3 witness: the protocol on the empty filesystem with no failures —
the output lands at the final path, the temporary name is gone, the log
is empty, and the temporary file lives in the same directory. -/
theorem cacheWriteAsync_protocol_witness :
    (cacheTmpName exFile "u9").dropLast = exFile.dropLast ∧
    fsEmpty.mkdirFails exFile.dropLast = false ∧
    fsEmpty.writeFails (cacheTmpName exFile "u9") = false ∧
    fsEmpty.renameFails exFile = false ∧
    ((cacheWriteAsync fsEmpty exFile "OUT" "u9").1.files exFile =
      some "OUT" ∧
     (cacheWriteAsync fsEmpty exFile "OUT" "u9").2 = []) ∧
    (cacheWriteAsync fsEmpty exFile "OUT" "u9").1.files
      (cacheTmpName exFile "u9") = none := by
  have h := cacheWriteAsync_protocol fsEmpty exFile "OUT" "u9"
  have h5 := h.2.2.2.2 rfl rfl rfl
  exact ⟨h.1, rfl, rfl, rfl, ⟨h5.1, h5.2.2⟩, h5.2.1 (by decide)⟩

/-- Helper: a successful cache-path computation memoizes the cache
directory, and every later computation for the same source on the
resulting state returns the same path and state, on any filesystem
(the memo is served without filesystem access). -/
theorem getCacheFilename_memo (sha1 : List Char → String) (tmpdir : Path)
    (cfg : Config) (nt : NT) (fs : FS) (src : String) (cp : Path)
    (nt1 : NT)
    (h : getCacheFilename sha1 tmpdir cfg nt fs src = .ok (cp, nt1)) :
    ∀ fs2, getCacheFilename sha1 tmpdir cfg nt1 fs2 src =
      .ok (cp, nt1) := by
  intro fs2
  unfold getCacheFilename at h ⊢
  cases hc : nt.cacheDir with
  | some d =>
      rw [hc] at h
      have hp := Except.ok.inj h
      injection hp with hcp hnt
      subst hcp
      subst hnt
      rw [hc]
  | none =>
      rw [hc] at h
      cases hg : getConfigDigest sha1 cfg nt fs with
      | mk r nt' =>
          rw [hg] at h
          cases r with
          | error e => exact absurd h (by simp)
          | ok dg =>
              have hp := Except.ok.inj h
              injection hp with hcp hnt
              subst hcp
              subst hnt
              rfl

/-- Helper: when directory creation, write and rename all succeed, the
write-back deposits the output at the final path and touches no other
state relevant to a later lookup. -/
theorem cacheWriteAsync_success_state (fs : FS) (filename : Path)
    (src uuid : String)
    (h1 : fs.mkdirFails filename.dropLast = false)
    (h2 : fs.writeFails (cacheTmpName filename uuid) = false)
    (h3 : fs.renameFails filename = false) :
    (cacheWriteAsync fs filename src uuid).1.files filename = some src ∧
    (cacheWriteAsync fs filename src uuid).1.unreadable = fs.unreadable := by
  unfold cacheWriteAsync mkdirp writeFile rename
  simp only [h1, h2, h3, Bool.false_eq_true, if_false]
  constructor
  · simp
  · rfl

/-- C1: round trip.  For a source unit accepted by the prefilter, a
first transformWithCache call on a miss (with a functioning filesystem)
returns exactly the engine output while scheduling the write-back; once
that write-back has completed, a second call for the byte-identical
source returns the byte-identical output, performs zero engine
invocations, and leaves both the filesystem and the instance state
unchanged (it is served from the cache file). -/
theorem transformWithCache_roundtrip
    (babel : String → Except String String) (sha1 : List Char → String)
    (tmpdir : Path) (cfg : Config) (nt : NT)
    (src filename uuid uuid2 : String) (fs : FS) (cp : Path) (nt1 : NT)
    (out : String)
    (hpre : shouldCompile src.data = true)
    (hpath : getCacheFilename sha1 tmpdir cfg nt fs src = .ok (cp, nt1))
    (hmiss : fs.files cp = none)
    (heng : babel src = .ok out)
    (hmk : fs.mkdirFails cp.dropLast = false)
    (hw : fs.writeFails (cacheTmpName cp uuid) = false)
    (hr : fs.renameFails cp = false)
    (hunread : ∀ p, fs.unreadable p = false) :
    (transformWithCache babel sha1 tmpdir cfg nt src filename uuid
      fs).out = .ok out ∧
    (∀ r1, transformWithCache babel sha1 tmpdir cfg nt src filename uuid
        fs = r1 →
      (transformWithCache babel sha1 tmpdir cfg r1.nt src filename uuid2
        r1.fs).out = .ok out ∧
      (transformWithCache babel sha1 tmpdir cfg r1.nt src filename uuid2
        r1.fs).engineCalls = 0 ∧
      (transformWithCache babel sha1 tmpdir cfg r1.nt src filename uuid2
        r1.fs).fs = r1.fs ∧
      (transformWithCache babel sha1 tmpdir cfg r1.nt src filename uuid2
        r1.fs).nt = r1.nt) := by
  have hex : existsSync fs cp = false := by
    simp [existsSync, hmiss]
  have hstate := cacheWriteAsync_success_state fs cp out uuid hmk hw hr
  have hcall1 : transformWithCache babel sha1 tmpdir cfg nt src filename
      uuid fs =
      ⟨.ok out, nt1, (cacheWriteAsync fs cp out uuid).1, 1,
       [] ++ (cacheWriteAsync fs cp out uuid).2⟩ := by
    unfold transformWithCache
    simp only [hpath, hex, Bool.false_eq_true, if_false]
    unfold transform
    rw [heng]
  constructor
  · rw [hcall1]
  · intro r1 hr1
    rw [hcall1] at hr1
    have hpath2 := getCacheFilename_memo sha1 tmpdir cfg nt fs src cp nt1
      hpath (cacheWriteAsync fs cp out uuid).1
    have hex2 : existsSync (cacheWriteAsync fs cp out uuid).1 cp = true := by
      simp [existsSync, hstate.1]
    have hread2 : readFileSync (cacheWriteAsync fs cp out uuid).1 cp =
        .ok out := by
      unfold readFileSync
      rw [hstate.1, hstate.2, hunread cp]
      simp
    have hcall2 : transformWithCache babel sha1 tmpdir cfg nt1 src
        filename uuid2 (cacheWriteAsync fs cp out uuid).1 =
        ⟨.ok out, nt1, (cacheWriteAsync fs cp out uuid).1, 0, []⟩ := by
      unfold transformWithCache
      simp only [hpath2, hex2, if_true, hread2]
    rw [← hr1]
    simp only [hcall2]
    exact ⟨trivial, trivial, trivial, trivial⟩

/-- Example source unit accepted by the prefilter. -/
def exSrc : String := "\x27use babel\x27 x"

/-- Cache path for exSrc under the example configuration. -/
def exCP2 : Path :=
  match getCacheFilename String.mk exTmp exCfg exNT fsA exSrc with
  | .ok (p, _) => p
  | .error _ => []

/-- Instance state after computing the cache path for exSrc. -/
def exNT1b : NT :=
  match getCacheFilename String.mk exTmp exCfg exNT fsA exSrc with
  | .ok (_, n) => n
  | .error _ => exNT

/-- Result of the first transformWithCache call in the round-trip
scenario (write-back completed). -/
def exR1 : Result :=
  transformWithCache exGoodBabel String.mk exTmp exCfg exNT exSrc
    "f.js" "u1" fsA

/-- C1 witness: the concrete round trip — a miss that computes
"OUT \x27use babel\x27 x", then a hit serving the same bytes with zero
engine invocations and no state change. -/
theorem transformWithCache_roundtrip_witness :
    shouldCompile exSrc.data = true ∧
    getCacheFilename String.mk exTmp exCfg exNT fsA exSrc =
      .ok (exCP2, exNT1b) ∧
    fsA.files exCP2 = none ∧
    (transformWithCache exGoodBabel String.mk exTmp exCfg exNT exSrc
      "f.js" "u1" fsA).out = .ok ("OUT " ++ exSrc) ∧
    ((transformWithCache exGoodBabel String.mk exTmp exCfg exR1.nt exSrc
       "f.js" "u2" exR1.fs).out = .ok ("OUT " ++ exSrc) ∧
     (transformWithCache exGoodBabel String.mk exTmp exCfg exR1.nt exSrc
       "f.js" "u2" exR1.fs).engineCalls = 0 ∧
     (transformWithCache exGoodBabel String.mk exTmp exCfg exR1.nt exSrc
       "f.js" "u2" exR1.fs).fs = exR1.fs ∧
     (transformWithCache exGoodBabel String.mk exTmp exCfg exR1.nt exSrc
       "f.js" "u2" exR1.fs).nt = exR1.nt) := by
  have h := transformWithCache_roundtrip exGoodBabel String.mk exTmp
    exCfg exNT exSrc "f.js" "u1" "u2" fsA exCP2 exNT1b ("OUT " ++ exSrc)
    (by decide) (by rfl) (by rfl) rfl rfl rfl rfl (fun _ => rfl)
  exact ⟨by decide, by rfl, by rfl, h.1, h.2 exR1 rfl⟩

end NodeTranspiler
